import Mathlib

/-!
Verification development for the roommate rent/utilities dashboard
(`src/app.py`).  The relevant parts of the program are shallowly embedded:

* `_retry_sheets` (lines 170-185) becomes `retry_sheets`, a fuel-bounded
  recursion over an abstract per-attempt outcome function; the wall-clock
  `time.sleep` calls are recorded as a trace of rational delays.
* `ensure_worksheet_and_headers` (187-223) becomes a pure transformer on a
  `SheetState`, counting the write calls it issues.
* `append_row` together with the module-level submission handler
  (423-471) becomes `runBatch` / `submitBatch`, explicit state passing over
  a `BatchState`; upload and append outcomes are oracles so every failure
  pattern of the remote services is representable.
* `ensure_folder` (258-273) becomes a transformer on a `DriveState`.
* `load_entries_df_cached`'s row parsing (236-251) and the summary
  filtering (484-498) become `load_entries_rows` and `filterView` with
  amounts as rationals.
-/

deriving instance DecidableEq for Except

namespace App

/-! ### Exceptions and the retry executor (`_retry_sheets`, app.py 170-185)

`GExc.http s tag` models a `googleapiclient.errors.HttpError` whose
extractable numeric status is `s` (`none` when neither `status_code` nor
`resp.status` yields one); `tag` is an opaque payload distinguishing the
exception objects raised on different attempts.  `GExc.other` models any
exception that is not an `HttpError` (e.g. a transport/socket error) and
`GExc.runtime` models the `RuntimeError("Unknown Sheets error")` raised
when the loop falls through with no recorded error. -/

inductive GExc where
  | http (status : Option Int) (tag : Nat)
  | other (tag : Nat)
  | runtime
deriving DecidableEq, Repr

/-- Result of one call to the retry executor: the value or propagated
exception, how many times the wrapped operation was invoked, and the trace
of `time.sleep` delays in order. -/
structure RetryResult (α : Type) where
  result : Except GExc α
  attempts : Nat
  sleeps : List ℚ
deriving Repr

instance {α : Type} [DecidableEq α] : DecidableEq (RetryResult α) := fun x y =>
  match x, y with
  | ⟨r1, a1, s1⟩, ⟨r2, a2, s2⟩ =>
    if h : r1 = r2 ∧ a1 = a2 ∧ s1 = s2 then
      .isTrue (by obtain ⟨h1, h2, h3⟩ := h; subst h1; subst h2; subst h3; rfl)
    else
      .isFalse (by intro hc; cases hc; exact h ⟨rfl, rfl, rfl⟩)

/-- The classification `status and 500 <= int(status) < 600` applied to a
failed attempt's outcome (a truthy extractable status in the 5xx range). -/
def isTransientFailure {α : Type} : Except GExc α → Bool
  | .error (.http (some s) _) => decide (500 ≤ s ∧ s < 600)
  | _ => false

/-- The loop body of `_retry_sheets`: `i` attempts already made, `fuel`
iterations of `for _ in range(5)` remaining, `d` the current `delay`,
`lastErr` the `last_err` variable, `sleeps` the delays slept so far.
A transient 5xx `HttpError` records the error, sleeps `d`, doubles the
delay capped at 8, and continues; any other `HttpError` is re-raised; a
non-`HttpError` is not caught at all, hence also propagates at once. -/
def retryAux {α : Type} (op : Nat → Except GExc α) :
    Nat → Nat → ℚ → Option GExc → List ℚ → RetryResult α
  | i, 0, _d, lastErr, sleeps => ⟨.error (lastErr.getD .runtime), i, sleeps⟩
  | i, fuel + 1, d, _lastErr, sleeps =>
    match op i with
    | .ok a => ⟨.ok a, i + 1, sleeps⟩
    | .error (.http (some s) t) =>
      if 500 ≤ s ∧ s < 600 then
        retryAux op (i + 1) fuel (min (d * 2) 8) (some (.http (some s) t)) (sleeps ++ [d])
      else ⟨.error (.http (some s) t), i + 1, sleeps⟩
    | .error e => ⟨.error e, i + 1, sleeps⟩

/-- `_retry_sheets(callable_fn)`: 5 iterations, delay starting at 1. -/
def retry_sheets {α : Type} (op : Nat → Except GExc α) : RetryResult α :=
  retryAux op 0 5 1 none []

lemma transient_shape {α : Type} {x : Except GExc α}
    (h : isTransientFailure x = true) :
    ∃ s t, x = Except.error (.http (some s) t) ∧ 500 ≤ s ∧ s < 600 := by
  match x with
  | .ok _ => simp [isTransientFailure] at h
  | .error (.http (some s) t) =>
    refine ⟨s, t, rfl, ?_⟩
    simpa [isTransientFailure] using h
  | .error (.http none t) => simp [isTransientFailure] at h
  | .error (.other t) => simp [isTransientFailure] at h
  | .error .runtime => simp [isTransientFailure] at h

lemma retryAux_step_transient {α : Type} (op : Nat → Except GExc α)
    (i fuel : Nat) (d : ℚ) (lastErr : Option GExc) (sleeps : List ℚ)
    {s : Int} {t : Nat}
    (hop : op i = Except.error (.http (some s) t)) (h₁ : 500 ≤ s) (h₂ : s < 600) :
    retryAux op i (fuel + 1) d lastErr sleeps =
      retryAux op (i + 1) fuel (min (d * 2) 8) (some (.http (some s) t)) (sleeps ++ [d]) := by
  simp [retryAux, hop, h₁, h₂]

lemma retryAux_step_raise {α : Type} (op : Nat → Except GExc α)
    (i fuel : Nat) (d : ℚ) (lastErr : Option GExc) (sleeps : List ℚ)
    {e : GExc} (hop : op i = Except.error e)
    (hnt : isTransientFailure (Except.error e : Except GExc α) = false) :
    retryAux op i (fuel + 1) d lastErr sleeps = ⟨.error e, i + 1, sleeps⟩ := by
  match e with
  | .http (some s) t =>
    have hb : ¬ (500 ≤ s ∧ s < 600) := by
      simpa [isTransientFailure] using hnt
    simp [retryAux, hop, hb]
  | .http none t => simp [retryAux, hop]
  | .other t => simp [retryAux, hop]
  | .runtime => simp [retryAux, hop]

lemma min_two_eight : min ((1 : ℚ) * 2) 8 = 2 := by norm_num [min_def]

lemma min_four_eight : min ((2 : ℚ) * 2) 8 = 4 := by norm_num [min_def]

lemma min_eight_eight : min ((4 : ℚ) * 2) 8 = 8 := by norm_num [min_def]

lemma min_sixteen_eight : min ((8 : ℚ) * 2) 8 = 8 := by norm_num [min_def]

/-- C1 (amended): a wrapped operation failing on every invocation with a
transient 5xx `HttpError` is invoked exactly 5 times, the waits between
consecutive attempts are 1, 2, 4, 8 time units (the full sleep trace is
1, 2, 4, 8, 8 — one final backoff sleep occurs after the last attempt,
before propagation), and the executor propagates the LAST observed error,
i.e. the one raised by the 5th attempt; a 404 failure on the first attempt
propagates immediately after exactly one attempt with no sleeps. -/
theorem retry_backoff_policy :
    (∀ op : Nat → Except GExc Unit,
      (∀ i, i < 5 → isTransientFailure (op i) = true) →
        (retry_sheets op).attempts = 5 ∧
        (retry_sheets op).sleeps = [1, 2, 4, 8, 8] ∧
        (retry_sheets op).sleeps.take 4 = [1, 2, 4, 8] ∧
        ∀ e, op 4 = Except.error e → (retry_sheets op).result = Except.error e) ∧
    (∀ (op : Nat → Except GExc Unit) (t : Nat),
      op 0 = Except.error (.http (some 404) t) →
        (retry_sheets op).attempts = 1 ∧
        (retry_sheets op).sleeps = [] ∧
        (retry_sheets op).result = Except.error (.http (some 404) t)) := by
  constructor
  · intro op h
    obtain ⟨s0, t0, hx0, hl0, hr0⟩ := transient_shape (h 0 (by norm_num))
    obtain ⟨s1, t1, hx1, hl1, hr1⟩ := transient_shape (h 1 (by norm_num))
    obtain ⟨s2, t2, hx2, hl2, hr2⟩ := transient_shape (h 2 (by norm_num))
    obtain ⟨s3, t3, hx3, hl3, hr3⟩ := transient_shape (h 3 (by norm_num))
    obtain ⟨s4, t4, hx4, hl4, hr4⟩ := transient_shape (h 4 (by norm_num))
    have e1 : retry_sheets op =
        retryAux op 1 4 (min (1 * 2) 8) (some (.http (some s0) t0)) ([] ++ [1]) :=
      retryAux_step_transient op 0 4 1 none [] hx0 hl0 hr0
    rw [min_two_eight] at e1
    have e2 : retryAux op 1 4 2 (some (.http (some s0) t0)) ([] ++ [1]) =
        retryAux op 2 3 (min (2 * 2) 8) (some (.http (some s1) t1)) (([] ++ [1]) ++ [2]) :=
      retryAux_step_transient op 1 3 2 (some (.http (some s0) t0)) ([] ++ [1]) hx1 hl1 hr1
    rw [min_four_eight] at e2
    have e3 : retryAux op 2 3 4 (some (.http (some s1) t1)) (([] ++ [1]) ++ [2]) =
        retryAux op 3 2 (min (4 * 2) 8) (some (.http (some s2) t2))
          ((([] ++ [1]) ++ [2]) ++ [4]) :=
      retryAux_step_transient op 2 2 4 (some (.http (some s1) t1)) (([] ++ [1]) ++ [2])
        hx2 hl2 hr2
    rw [min_eight_eight] at e3
    have e4 : retryAux op 3 2 8 (some (.http (some s2) t2)) ((([] ++ [1]) ++ [2]) ++ [4]) =
        retryAux op 4 1 (min (8 * 2) 8) (some (.http (some s3) t3))
          (((([] ++ [1]) ++ [2]) ++ [4]) ++ [8]) :=
      retryAux_step_transient op 3 1 8 (some (.http (some s2) t2))
        ((([] ++ [1]) ++ [2]) ++ [4]) hx3 hl3 hr3
    rw [min_sixteen_eight] at e4
    have e5 : retryAux op 4 1 8 (some (.http (some s3) t3))
          (((([] ++ [1]) ++ [2]) ++ [4]) ++ [8]) =
        retryAux op 5 0 (min (8 * 2) 8) (some (.http (some s4) t4))
          ((((([] ++ [1]) ++ [2]) ++ [4]) ++ [8]) ++ [8]) :=
      retryAux_step_transient op 4 0 8 (some (.http (some s3) t3))
        (((([] ++ [1]) ++ [2]) ++ [4]) ++ [8]) hx4 hl4 hr4
    have efin : retry_sheets op =
        ⟨Except.error (.http (some s4) t4), 5, [1, 2, 4, 8, 8]⟩ := by
      rw [e1, e2, e3, e4, e5]; rfl
    refine ⟨by rw [efin], by rw [efin], by rw [efin]; rfl, ?_⟩
    intro e he
    rw [hx4] at he
    rw [efin, ← he]
  · intro op t hop
    have h0 : retry_sheets op = ⟨Except.error (.http (some 404) t), 1, []⟩ :=
      retryAux_step_raise op 0 4 1 none [] hop (by norm_num [isTransientFailure])
    exact ⟨by rw [h0], by rw [h0], by rw [h0]⟩

/-- An operation whose 1st invocation fails with a 503 `HttpError` and whose
later invocations fail with 500 `HttpError`s — every attempt fails with a
transient 5xx status, yet the errors differ between attempts. -/
def op503then500 : Nat → Except GExc Unit := fun i =>
  .error (.http (some (if i = 0 then 503 else 500)) 0)

/-- C1 counterexample: wrapping `op503then500` (all five attempts fail with
5xx statuses) propagates the status-500 error of the later attempts, not
the first observed status-503 error, refuting "propagates the original
(first observed) error". -/
theorem retry_first_error_refuted :
    op503then500 0 = Except.error (.http (some 503) 0) ∧
    ((List.range 5).all fun i => isTransientFailure (op503then500 i)) = true ∧
    (retry_sheets op503then500).result = Except.error (.http (some 500) 0) ∧
    (Except.error (.http (some 500) 0) : Except GExc Unit) ≠
      Except.error (.http (some 503) 0) := by
  refine ⟨rfl, by decide, ?_, by decide⟩
  decide

/-- A first invocation failing with a non-`HttpError` (transport) error. -/
def opTransport : Nat → Except GExc Unit := fun _ => .error (.other 7)

/-- A first invocation failing with an `HttpError` carrying no numeric
status. -/
def opNoStatus : Nat → Except GExc Unit := fun _ => .error (.http none 9)

/-- C9: the executor retries only `HttpError`s — a non-`HttpError` failure
on the first invocation, or an `HttpError` with no extractable numeric
status, propagates immediately: exactly one attempt, no sleep. -/
theorem retry_only_http_failures :
    (∀ (op : Nat → Except GExc Unit) (t : Nat),
      op 0 = Except.error (.other t) →
        retry_sheets op = ⟨Except.error (.other t), 1, []⟩) ∧
    (∀ (op : Nat → Except GExc Unit) (t : Nat),
      op 0 = Except.error (.http none t) →
        retry_sheets op = ⟨Except.error (.http none t), 1, []⟩) := by
  constructor
  · intro op t hop
    exact retryAux_step_raise op 0 4 1 none [] hop (by norm_num [isTransientFailure])
  · intro op t hop
    exact retryAux_step_raise op 0 4 1 none [] hop (by norm_num [isTransientFailure])

/-- Witness for C9 at the concrete operations `opTransport`, `opNoStatus`. -/
theorem retry_only_http_failures_witness :
    opTransport 0 = Except.error (.other 7) ∧
    opNoStatus 0 = Except.error (.http none 9) ∧
    retry_sheets opTransport = ⟨Except.error (.other 7), 1, []⟩ ∧
    retry_sheets opNoStatus = ⟨Except.error (.http none 9), 1, []⟩ :=
  ⟨rfl, rfl, retry_only_http_failures.1 opTransport 7 rfl,
    retry_only_http_failures.2 opNoStatus 9 rfl⟩

/-- An operation failing with a 503 `HttpError` on every invocation,
tagging each attempt's error with the attempt index. -/
def opAll503 : Nat → Except GExc Unit := fun i => .error (.http (some 503) i)

/-- An operation failing with a 404 `HttpError` on its first invocation. -/
def op404 : Nat → Except GExc Unit := fun _ => .error (.http (some 404) 3)

/-- Witness for C1 (amended) at `opAll503` and `op404`. -/
theorem retry_backoff_policy_witness :
    (∀ i, i < 5 → isTransientFailure (opAll503 i) = true) ∧
    (retry_sheets opAll503).attempts = 5 ∧
    (retry_sheets opAll503).sleeps = [1, 2, 4, 8, 8] ∧
    (retry_sheets opAll503).sleeps.take 4 = [1, 2, 4, 8] ∧
    (retry_sheets opAll503).result = Except.error (.http (some 503) 4) ∧
    (retry_sheets op404).attempts = 1 ∧
    (retry_sheets op404).sleeps = [] ∧
    (retry_sheets op404).result = Except.error (.http (some 404) 3) := by
  have h1 := retry_backoff_policy.1 opAll503 (by decide)
  have h2 := retry_backoff_policy.2 op404 3 rfl
  exact ⟨by decide, h1.1, h1.2.1, h1.2.2.1, h1.2.2.2 _ rfl, h2.1, h2.2.1, h2.2.2⟩

/-! ### Tabular store and `ensure_worksheet_and_headers` (app.py 68-71, 187-223)

A `SheetState` is the `Entries` worksheet of the spreadsheet: whether the
tab exists and its grid of rows (row 0 is the header row; rows may have any
width, as in the remote store).  Reads are modelled as pure functions of
the state; `writes` counts the write calls issued (`batchUpdate` with
`addSheet`, and `values().update`).  The `_retry_sheets` wrapping of these
calls affects only failure behaviour, which C5/C6 do not exercise. -/

def HEADERS : List String :=
  ["timestamp", "roommate", "month", "category",
   "amount", "status", "date", "notes", "file_links"]

structure SheetState where
  wsExists : Bool
  rows : List (List String)
deriving DecidableEq, Repr

/-- Remove trailing empty cells, as the Sheets API omits them from a
`values().get` response. -/
def trimTrailingEmpty (r : List String) : List String :=
  (r.reverse.dropWhile (· = "")).reverse

/-- The response `values` of `values().get(range="Entries!A1:I1")`: the
first row restricted to columns A..I, with trailing empty cells trimmed;
an absent or entirely empty first row yields no values at all. -/
def fetchHeaderValues (rows : List (List String)) : List (List String) :=
  match rows.head? with
  | none => []
  | some r =>
    let t := trimTrailingEmpty (r.take 9)
    if t = [] then [] else [t]

/-- The effect of `values().update(range="Entries!A1", body=[HEADERS])`:
the nine header cells are written into columns A..I of row 1, leaving any
cells beyond column I and all rows below row 1 untouched. -/
def writeHeaderA1 (rows : List (List String)) : List (List String) :=
  match rows with
  | [] => [HEADERS]
  | r :: rest => (HEADERS ++ r.drop 9) :: rest

structure EnsureResult where
  state : SheetState
  writes : Nat
deriving DecidableEq, Repr

/-- `ensure_worksheet_and_headers(svc)`: create the tab and write the
header when the tab is missing (two writes); otherwise fetch A1:I1 and
overwrite with the canonical header iff the response is empty or differs
from `HEADERS` (one write); otherwise do nothing. -/
def ensure_worksheet_and_headers (s : SheetState) : EnsureResult :=
  if s.wsExists then
    let values := fetchHeaderValues s.rows
    if values = [] ∨ values.head? ≠ some HEADERS then
      ⟨⟨true, writeHeaderA1 s.rows⟩, 1⟩
    else
      ⟨s, 0⟩
  else
    ⟨⟨true, writeHeaderA1 []⟩, 2⟩

lemma fetchHeaderValues_of_head (rows : List (List String)) (r : List String)
    (h : rows.head? = some r) :
    fetchHeaderValues rows =
      (let t := trimTrailingEmpty (r.take 9); if t = [] then [] else [t]) := by
  unfold fetchHeaderValues
  rw [h]

lemma fetchHeaderValues_canonical (rows : List (List String))
    (h : rows.head? = some HEADERS) : fetchHeaderValues rows = [HEADERS] := by
  rw [fetchHeaderValues_of_head rows HEADERS h]
  rfl

/-- C5: on a worksheet that exists and whose first row already equals the
canonical 9-column header, `ensure_worksheet_and_headers` performs zero
write calls and leaves the state unchanged; calling it twice therefore
produces the same end state as calling it once. -/
theorem ensure_headers_idempotent (s : SheetState)
    (hex : s.wsExists = true) (hhd : s.rows.head? = some HEADERS) :
    ensure_worksheet_and_headers s = ⟨s, 0⟩ ∧
    ensure_worksheet_and_headers (ensure_worksheet_and_headers s).state = ⟨s, 0⟩ := by
  have hv := fetchHeaderValues_canonical s.rows hhd
  have h1 : ensure_worksheet_and_headers s = ⟨s, 0⟩ := by
    unfold ensure_worksheet_and_headers
    rw [if_pos hex, hv]
    simp
  exact ⟨h1, by rw [h1]; exact h1⟩

/-- Witness for C5: a worksheet holding the canonical header and one data
row is left untouched, with zero writes, by two consecutive calls. -/
theorem ensure_headers_idempotent_witness :
    ensure_worksheet_and_headers
        ⟨true, [HEADERS, ["2024-01-01 00:00:00", "Gautam", "2024-05", "Rent",
                          "100", "Paid", "2024-05-01", "", ""]]⟩ =
      ⟨⟨true, [HEADERS, ["2024-01-01 00:00:00", "Gautam", "2024-05", "Rent",
                         "100", "Paid", "2024-05-01", "", ""]]⟩, 0⟩ :=
  (ensure_headers_idempotent
    ⟨true, [HEADERS, ["2024-01-01 00:00:00", "Gautam", "2024-05", "Rent",
                      "100", "Paid", "2024-05-01", "", ""]]⟩ rfl rfl).1

lemma fetchHeaderValues_shape (rows : List (List String)) :
    fetchHeaderValues rows = [] ∨ ∃ v, fetchHeaderValues rows = [v] := by
  unfold fetchHeaderValues
  match rows.head? with
  | none => exact Or.inl rfl
  | some r =>
    by_cases h : trimTrailingEmpty (r.take 9) = []
    · exact Or.inl (by simp [h])
    · exact Or.inr ⟨trimTrailingEmpty (r.take 9), by simp [h]⟩

lemma HEADERS_length : HEADERS.length = 9 := rfl

/-- C6 counterexample: a worksheet whose first row is the canonical header
followed by one extra non-empty cell.  The first row differs from the
canonical 9-column header, yet `ensure_worksheet_and_headers` performs
zero writes and leaves the state unchanged, because the code only compares
the `A1:I1` window of the first row. -/
theorem ensure_headers_mismatch_unhealed :
    (SheetState.mk true [HEADERS ++ ["extra"], ["r1"]]).rows.head? =
      some (HEADERS ++ ["extra"]) ∧
    HEADERS ++ ["extra"] ≠ HEADERS ∧
    ensure_worksheet_and_headers ⟨true, [HEADERS ++ ["extra"], ["r1"]]⟩ =
      ⟨⟨true, [HEADERS ++ ["extra"], ["r1"]]⟩, 0⟩ := by
  refine ⟨rfl, by decide, ?_⟩
  decide

/-- C6 (amended): when the worksheet exists and the fetched `A1:I1` window
of the first row (its first nine cells, trailing empty cells trimmed)
differs from the canonical header or is empty,
`ensure_worksheet_and_headers` performs exactly one write, which places the
canonical 9-column header in the first nine cells of the first row,
preserving any cells of the first row beyond the ninth column and every
data row below the header. -/
theorem ensure_headers_self_healing (s : SheetState)
    (hex : s.wsExists = true) (hne : fetchHeaderValues s.rows ≠ [HEADERS]) :
    ensure_worksheet_and_headers s = ⟨⟨true, writeHeaderA1 s.rows⟩, 1⟩ ∧
    (writeHeaderA1 s.rows).drop 1 = s.rows.drop 1 ∧
    (writeHeaderA1 s.rows).head?.map (fun r => r.take 9) = some HEADERS ∧
    (writeHeaderA1 s.rows).head?.map (fun r => r.drop 9) =
      some ((s.rows.headD []).drop 9) := by
  have hcond : fetchHeaderValues s.rows = [] ∨
      (fetchHeaderValues s.rows).head? ≠ some HEADERS := by
    rcases fetchHeaderValues_shape s.rows with h | ⟨v, h⟩
    · exact Or.inl h
    · refine Or.inr ?_
      rw [h]
      intro hc
      apply hne
      rw [h]
      simpa using hc
  have h1 : ensure_worksheet_and_headers s = ⟨⟨true, writeHeaderA1 s.rows⟩, 1⟩ := by
    unfold ensure_worksheet_and_headers
    rw [if_pos hex, if_pos hcond]
  refine ⟨h1, ?_, ?_, ?_⟩ <;>
    · unfold writeHeaderA1
      match s.rows with
      | [] => rfl
      | r :: rest => simp [HEADERS_length, List.take_append_of_le_length]

/-- Witness for C6 (amended): a worksheet whose first row is
`["wrong", "headers"]` gets the canonical header written over its first
nine cells in exactly one write, with the data row below untouched. -/
theorem ensure_headers_self_healing_witness :
    fetchHeaderValues [["wrong", "headers"], ["d1"]] ≠ [HEADERS] ∧
    ensure_worksheet_and_headers ⟨true, [["wrong", "headers"], ["d1"]]⟩ =
      ⟨⟨true, [HEADERS, ["d1"]]⟩, 1⟩ := by
  have h := ensure_headers_self_healing ⟨true, [["wrong", "headers"], ["d1"]]⟩
    rfl (by decide)
  exact ⟨by decide, by rw [h.1]; rfl⟩

/-! ### Row loading and amount coercion (`load_entries_df_cached`, app.py 236-251)

`pd.DataFrame(rows, columns=HEADERS)` over a list of fetched rows pads
ragged rows with missing cells (`NaN`, modelled as `none`) up to the widest
row, and raises when the widest row's width differs from the 9 column
names.  `pd.to_numeric(..., errors="coerce").fillna(0.0)` is modelled by a
decimal parser on string cells: unparsable cells and missing cells become
`0`.  Amounts are rationals (the decimal literals the dashboard handles
are exactly representable). -/

def digitsVal (cs : List Char) : Nat :=
  cs.foldl (fun acc c => acc * 10 + (c.toNat - '0'.toNat)) 0

/-- Parse an optional-sign decimal numeral `digits[.digits]`; the value
`ip.fp` is the rational `(ip * 10^|fp| + fp) / 10^|fp|`. -/
def parseSigned (sign : Int) (cs : List Char) : Option ℚ :=
  let ip := cs.takeWhile (·.isDigit)
  let rest := cs.dropWhile (·.isDigit)
  match rest with
  | [] => if ip.isEmpty then none else some (mkRat (sign * (digitsVal ip : Int)) 1)
  | '.' :: fp =>
    if fp.all (·.isDigit) ∧ (ip ≠ [] ∨ fp ≠ []) then
      some (mkRat (sign * ((digitsVal ip * 10 ^ fp.length + digitsVal fp : Nat) : Int))
        (10 ^ fp.length))
    else none
  | _ => none

/-- The numeric parse applied to one `amount` cell by
`pd.to_numeric(..., errors="coerce")`: `none` is the coerced `NaN`. -/
def parseAmount (s : String) : Option ℚ :=
  match s.data with
  | '-' :: rest => parseSigned (-1) rest
  | '+' :: rest => parseSigned 1 rest
  | cs => parseSigned 1 cs

/-- `to_numeric(...).fillna(0.0)` on one cell (`none` = missing/NaN). -/
def coerceAmount (c : Option String) : ℚ :=
  match c with
  | none => 0
  | some s => (parseAmount s).getD 0

/-- One loaded entry (one row of the in-memory table). -/
structure Entry where
  timestamp : String
  roommate : String
  month : String
  category : String
  amount : ℚ
  status : String
  date : String
  notes : String
  fileLinks : String
deriving DecidableEq, Repr

/-- Pad a fetched row to width `w` with missing cells. -/
def padRow (w : Nat) (r : List String) : List (Option String) :=
  r.map some ++ List.replicate (w - r.length) none

def cellStr (c : Option String) : String := c.getD ""

def rowToEntry (r : List (Option String)) : Entry :=
  { timestamp := cellStr (r.getD 0 none)
    roommate := cellStr (r.getD 1 none)
    month := cellStr (r.getD 2 none)
    category := cellStr (r.getD 3 none)
    amount := coerceAmount (r.getD 4 none)
    status := cellStr (r.getD 5 none)
    date := cellStr (r.getD 6 none)
    notes := cellStr (r.getD 7 none)
    fileLinks := cellStr (r.getD 8 none) }

/-- Width of the widest fetched row (the number of data columns pandas
infers for `pd.DataFrame(rows, ...)`). -/
def maxWidth (rows : List (List String)) : Nat :=
  rows.foldl (fun m r => max m r.length) 0

/-- The data path of `load_entries_df_cached`: empty fetch gives an empty
table; otherwise `pd.DataFrame(rows, columns=HEADERS)` raises unless the
inferred data width is exactly 9, and the `amount` column is coerced. -/
def load_entries_rows (rows : List (List String)) : Except String (List Entry) :=
  if rows = [] then
    .ok []
  else if maxWidth rows ≠ 9 then
    .error "9 columns passed, passed data had a different number of columns"
  else
    .ok (rows.map (fun r => rowToEntry (padRow 9 r)))

/-- C7: the amount parse never raises — an unparsable cell (e.g. `"abc"`)
coerces to `0` and a parsable cell (e.g. `"12.5"`) yields its numeric
value — and `load_entries_rows` applies exactly this coercion to the
amount column. -/
theorem amount_coercion_on_read :
    (∀ s : String, parseAmount s = none → coerceAmount (some s) = 0) ∧
    (∀ (s : String) (q : ℚ), parseAmount s = some q → coerceAmount (some s) = q) ∧
    coerceAmount none = 0 ∧
    coerceAmount (some "abc") = 0 ∧
    coerceAmount (some "12.5") = 25 / 2 ∧
    (load_entries_rows
        [["t", "rm", "2024-05", "Rent", "abc", "Paid", "2024-05-01", "", ""]]).map
        (fun l => l.map Entry.amount) = .ok [0] ∧
    (load_entries_rows
        [["t", "rm", "2024-05", "Rent", "12.5", "Paid", "2024-05-01", "", ""]]).map
        (fun l => l.map Entry.amount) = .ok [25 / 2] := by
  have h25 : (mkRat 25 2 : ℚ) = 25 / 2 := by
    rw [Rat.mkRat_eq_div]; norm_num
  refine ⟨?_, ?_, rfl, by decide, by rw [← h25]; decide, by decide,
    by rw [← h25]; decide⟩
  · intro s h
    simp [coerceAmount, h]
  · intro s q h
    simp [coerceAmount, h]

/-- Witness for C7's universally quantified parts at the cells `"abc"`
(unparsable) and `"7"` (parsable). -/
theorem amount_coercion_on_read_witness :
    parseAmount "abc" = none ∧ coerceAmount (some "abc") = 0 ∧
    parseAmount "7" = some 7 ∧ coerceAmount (some "7") = 7 :=
  ⟨by decide, amount_coercion_on_read.1 "abc" (by decide),
   by decide, amount_coercion_on_read.2.1 "7" 7 (by decide)⟩

lemma maxWidth_const (n : Nat) :
    ∀ (rows : List (List String)) (acc : Nat), rows ≠ [] →
      (∀ r ∈ rows, r.length = n) →
      rows.foldl (fun m r => max m r.length) acc = max acc n := by
  intro rows
  induction rows with
  | nil => intro acc h _; exact absurd rfl h
  | cons r rest ih =>
    intro acc _ hall
    have hr : r.length = n := hall r (by simp)
    match rest with
    | [] => simp [List.foldl, hr]
    | r2 :: rest2 =>
      have := ih (max acc r.length) (by simp) (fun x hx => hall x (by simp [hx]))
      simp only [List.foldl] at this ⊢
      rw [this, hr, max_assoc, max_self]

/-- C10: a non-empty fetched row set whose rows all have the same width
`n ≠ 9` (as happens when the remote store omits trailing empty cells)
makes the table construction raise instead of padding or truncating. -/
theorem load_entries_width_mismatch (rows : List (List String)) (n : Nat)
    (hne : rows ≠ []) (hall : ∀ r ∈ rows, r.length = n) (hn : n ≠ 9) :
    load_entries_rows rows =
      .error "9 columns passed, passed data had a different number of columns" := by
  have hmw : maxWidth rows = n := by
    unfold maxWidth
    rw [maxWidth_const n rows 0 hne hall]
    exact Nat.zero_max n
  unfold load_entries_rows
  rw [if_neg hne, if_pos (by rw [hmw]; exact hn)]

/-- Witness for C10: a single fetched row of width 8 (a trailing empty
`file_links` cell omitted by the remote store) makes the load raise. -/
theorem load_entries_width_mismatch_witness :
    load_entries_rows [["t", "rm", "2024-05", "Rent", "12.5", "Paid",
                        "2024-05-01", ""]] =
      .error "9 columns passed, passed data had a different number of columns" :=
  load_entries_width_mismatch
    [["t", "rm", "2024-05", "Rent", "12.5", "Paid", "2024-05-01", ""]] 8
    (by decide) (by decide) (by decide)

/-! ### View materializer (summary filtering and totals, app.py 484-498) -/

/-- The three sequential conditional filters the summary applies to the
loaded table for the sidebar selections (`"All"` skips a filter). -/
def filterView (df : List Entry) (rm mo stt : String) : List Entry :=
  let f1 := if rm = "All" then df else df.filter (fun e => decide (e.roommate = rm))
  let f2 := if mo = "All" then f1 else f1.filter (fun e => decide (e.month = mo))
  if stt = "All" then f2 else f2.filter (fun e => decide (e.status = stt))

/-- `filtered.loc[filtered["status"] == "Paid", "amount"].sum()`. -/
def totalPaid (df : List Entry) : ℚ :=
  ((df.filter (fun e => decide (e.status = "Paid"))).map Entry.amount).sum

/-- `filtered.loc[filtered["status"] == "Unpaid", "amount"].sum()`. -/
def totalUnpaid (df : List Entry) : ℚ :=
  ((df.filter (fun e => decide (e.status = "Unpaid"))).map Entry.amount).sum

/-- `filtered["amount"].sum()`. -/
def totalAll (df : List Entry) : ℚ := (df.map Entry.amount).sum

/-- A sample entry carrying only a status and an amount. -/
def sampleEntry (stt : String) (amt : ℚ) : Entry :=
  ⟨"", "", "", "", amt, stt, "", "", ""⟩

/-- C4: the produced subset contains exactly the rows where every
non-"All" filter matches by string equality (conjunction of the three
filters), the three sums range over the subset's Paid rows, Unpaid rows
and all rows respectively, and on the sample table
`[{Paid,100},{Unpaid,50},{Paid,25}]` with all filters "All" the totals
are Paid = 125, Unpaid = 50, All = 175. -/
theorem view_materializer_correct :
    (∀ (df : List Entry) (rm mo stt : String),
      filterView df rm mo stt =
        df.filter (fun e =>
          decide ((rm = "All" ∨ e.roommate = rm) ∧ (mo = "All" ∨ e.month = mo) ∧
            (stt = "All" ∨ e.status = stt)))) ∧
    (∀ df : List Entry,
      totalPaid df = ((df.filter (fun e => decide (e.status = "Paid"))).map
        Entry.amount).sum ∧
      totalUnpaid df = ((df.filter (fun e => decide (e.status = "Unpaid"))).map
        Entry.amount).sum ∧
      totalAll df = (df.map Entry.amount).sum) ∧
    totalPaid (filterView
      [sampleEntry "Paid" 100, sampleEntry "Unpaid" 50, sampleEntry "Paid" 25]
      "All" "All" "All") = 125 ∧
    totalUnpaid (filterView
      [sampleEntry "Paid" 100, sampleEntry "Unpaid" 50, sampleEntry "Paid" 25]
      "All" "All" "All") = 50 ∧
    totalAll (filterView
      [sampleEntry "Paid" 100, sampleEntry "Unpaid" 50, sampleEntry "Paid" 25]
      "All" "All" "All") = 175 := by
  refine ⟨?_, fun df => ⟨rfl, rfl, rfl⟩, ?_, ?_, ?_⟩
  · intro df rm mo stt
    by_cases h1 : rm = "All" <;> by_cases h2 : mo = "All" <;>
      by_cases h3 : stt = "All" <;>
      simp [filterView, h1, h2, h3, List.filter_filter, Bool.and_comm,
        Bool.and_assoc, Bool.and_left_comm]
  · simp [filterView, totalPaid, sampleEntry]
    norm_num
  · simp [filterView, totalUnpaid, sampleEntry]
  · simp [filterView, totalAll, sampleEntry]
    norm_num

/-! ### Hierarchical file store and `ensure_folder` (app.py 258-273)

A `DriveState` is the set of Drive files, in the order the `ListFile`
query returns them, plus a fresh-id counter.  `folderQuery` is the exact
query string `title = name and mimeType = folder and parentId in parents
and trashed = false`, interpreted semantically. -/

structure DFile where
  fid : Nat
  title : String
  parent : Nat
  isFolder : Bool
  trashed : Bool
deriving DecidableEq, Repr

structure DriveState where
  files : List DFile
  nextId : Nat
deriving DecidableEq, Repr

/-- `drive.ListFile({"q": ...}).GetList()` for the folder lookup query. -/
def folderQuery (st : DriveState) (name : String) (parentId : Nat) : List DFile :=
  st.files.filter (fun f =>
    decide (f.title = name ∧ f.parent = parentId ∧ f.isFolder = true ∧
      f.trashed = false))

structure EnsureFolderRes where
  fid : Nat
  state : DriveState
  creates : Nat
deriving DecidableEq, Repr

/-- `ensure_folder(drive, name, parent_id)`: return the first lookup match
if any; otherwise create one folder under the parent and return its id. -/
def ensure_folder (st : DriveState) (name : String) (parentId : Nat) :
    EnsureFolderRes :=
  match folderQuery st name parentId with
  | f :: _ => ⟨f.fid, st, 0⟩
  | [] =>
    ⟨st.nextId,
     ⟨st.files ++ [⟨st.nextId, name, parentId, true, false⟩], st.nextId + 1⟩, 1⟩

/-- C8: `ensure_folder` is an idempotent get-or-create — with a non-trashed
exact-name match under the parent it returns the first match's id and
creates nothing; with no match it creates exactly one folder with that
name under that parent and returns its id; two consecutive calls (no
interleaved external change) return the same id both times, the second is
a pure lookup hit, and starting from a match-free state exactly one create
happens in total. -/
lemma ensure_folder_hit (st : DriveState) (name : String) (p : Nat)
    (f : DFile) (rest : List DFile) (hq : folderQuery st name p = f :: rest) :
    ensure_folder st name p = ⟨f.fid, st, 0⟩ := by
  unfold ensure_folder
  rw [hq]

lemma ensure_folder_miss (st : DriveState) (name : String) (p : Nat)
    (hq : folderQuery st name p = []) :
    ensure_folder st name p =
      ⟨st.nextId,
       ⟨st.files ++ [⟨st.nextId, name, p, true, false⟩], st.nextId + 1⟩, 1⟩ := by
  unfold ensure_folder
  rw [hq]

lemma folderQuery_after_create (st : DriveState) (name : String) (p : Nat)
    (hq : folderQuery st name p = []) :
    folderQuery ⟨st.files ++ [⟨st.nextId, name, p, true, false⟩], st.nextId + 1⟩
        name p =
      [⟨st.nextId, name, p, true, false⟩] := by
  unfold folderQuery at hq ⊢
  simp only [List.filter_append, hq]
  simp

theorem ensure_folder_get_or_create (st : DriveState) (name : String) (p : Nat) :
    (∀ f, (folderQuery st name p).head? = some f →
      ensure_folder st name p = ⟨f.fid, st, 0⟩) ∧
    (folderQuery st name p = [] →
      ensure_folder st name p =
        ⟨st.nextId,
         ⟨st.files ++ [⟨st.nextId, name, p, true, false⟩], st.nextId + 1⟩, 1⟩) ∧
    ((ensure_folder (ensure_folder st name p).state name p).fid =
        (ensure_folder st name p).fid ∧
      (ensure_folder (ensure_folder st name p).state name p).state =
        (ensure_folder st name p).state ∧
      (ensure_folder (ensure_folder st name p).state name p).creates = 0 ∧
      (ensure_folder st name p).creates +
          (ensure_folder (ensure_folder st name p).state name p).creates =
        (if folderQuery st name p = [] then 1 else 0)) := by
  refine ⟨?_, ensure_folder_miss st name p, ?_⟩
  · intro g hg
    cases hqe : folderQuery st name p with
    | nil => rw [hqe] at hg; cases hg
    | cons f rest =>
      rw [hqe] at hg
      simp only [List.head?_cons, Option.some.injEq] at hg
      rw [← hg]
      exact ensure_folder_hit st name p f rest hqe
  · cases hqe : folderQuery st name p with
    | cons f rest =>
      have h1 := ensure_folder_hit st name p f rest hqe
      simp only [h1, hqe]
      simp
    | nil =>
      have h1 := ensure_folder_miss st name p hqe
      have h2 : ensure_folder
          (⟨st.files ++ [⟨st.nextId, name, p, true, false⟩],
            st.nextId + 1⟩ : DriveState) name p =
          ⟨st.nextId,
           ⟨st.files ++ [⟨st.nextId, name, p, true, false⟩], st.nextId + 1⟩, 0⟩ := by
        have := folderQuery_after_create st name p hqe
        exact ensure_folder_hit _ name p _ _ this
      simp only [h1, hqe]
      simp only [h2]
      simp

/-- Witness for C8: two calls of `ensureFolder "2024-05" root` on a drive
holding only the root folder return the same id, perform one create in
total, and the second call is a lookup hit with zero creates. -/
theorem ensure_folder_get_or_create_witness :
    folderQuery ⟨[⟨0, "root", 0, true, false⟩], 1⟩ "2024-05" 0 = [] ∧
    ensure_folder ⟨[⟨0, "root", 0, true, false⟩], 1⟩ "2024-05" 0 =
      ⟨1, ⟨[⟨0, "root", 0, true, false⟩, ⟨1, "2024-05", 0, true, false⟩], 2⟩, 1⟩ ∧
    (ensure_folder
        (ensure_folder ⟨[⟨0, "root", 0, true, false⟩], 1⟩ "2024-05" 0).state
        "2024-05" 0).fid =
      (ensure_folder ⟨[⟨0, "root", 0, true, false⟩], 1⟩ "2024-05" 0).fid ∧
    (ensure_folder ⟨[⟨0, "root", 0, true, false⟩], 1⟩ "2024-05" 0).creates +
        (ensure_folder
          (ensure_folder ⟨[⟨0, "root", 0, true, false⟩], 1⟩ "2024-05" 0).state
          "2024-05" 0).creates = 1 := by
  have h := ensure_folder_get_or_create ⟨[⟨0, "root", 0, true, false⟩], 1⟩
    "2024-05" 0
  refine ⟨by decide, h.2.1 (by decide), h.2.2.1, ?_⟩
  rw [h.2.2.2.2.2]
  decide

/-! ### Submission orchestrator (module-level handler, app.py 423-471)

One pending line item of a batch.  The `amount` field holds the string
`f"{item['amount']}"` as it enters the row.  The per-item outcomes of the
two remote services are oracles indexed by the item's position in the
batch: `upload i` is the result of the whole
`upload_files_to_drive` call for item `i` (a list of links, or the
exception it raised — per §4.4 a failing call reports no partial links),
and `append i` is the result of `append_row` for item `i` (the outcome of
its `_retry_sheets` wrapping: `GExc.http` failures are what the handler's
`except HttpError` catches; any other failure escapes the handler).
`BatchState` records the rows committed to the sheet in order, which item
indices had an upload / append attempted, the `drive_error` variable, the
error surfaced through `st.error` and an escaped (uncaught) exception. -/

structure Item where
  roommate : String
  month : String
  category : String
  amount : String
  status : String
  date : String
  notes : String
  hasUploads : Bool
deriving DecidableEq, Repr

structure BatchEnv where
  driveCfg : Bool
  ts : String
  upload : Nat → Except Nat (List String)
  append : Nat → Except GExc Unit

/-- The row built for an item (app.py 451-461):
`[timestamp, roommate, month, category, amount, status, date, notes,
"; ".join(links) if links else ""]`. -/
def mkRow (ts : String) (it : Item) (links : List String) : List String :=
  [ts, it.roommate, it.month, it.category, it.amount, it.status, it.date,
   it.notes, if links.isEmpty then "" else String.intercalate "; " links]

structure BatchState where
  appendedRows : List (List String)
  uploadsAttempted : List Nat
  appendsAttempted : List Nat
  driveError : Option Nat
  sheetsError : Option GExc
  escaped : Option GExc
deriving DecidableEq, Repr

/-- The links the item ends up with: the upload result when an upload is
attempted and succeeds, `[]` otherwise (`links = []` is reinitialised per
item and the `except` branch leaves it empty). -/
def itemLinks (env : BatchEnv) (i : Nat) (it : Item) : List String :=
  if env.driveCfg && it.hasUploads then
    match env.upload i with
    | .ok ls => ls
    | .error _ => []
  else []

/-- How an append failure leaves the loop: an `HttpError` is caught,
reported via `st.error` and breaks the loop; any other exception escapes
the handler (which also ends the batch). -/
def recordAppendErr (e : GExc) (st : BatchState) : BatchState :=
  match e with
  | .http s t => { st with sheetsError := some (.http s t) }
  | e' => { st with escaped := some e' }

/-- The `for item in pending:` loop (app.py 434-466): per item, attempt the
upload inside `try/except` (failure sets `drive_error` and is non-fatal),
build the row, and append it; append success appends the row to the sheet
and continues, append failure ends the loop via `recordAppendErr`. -/
def runBatch (env : BatchEnv) : List Item → Nat → BatchState → BatchState
  | [], _i, st => st
  | it :: rest, i, st =>
    let st1 : BatchState :=
      if env.driveCfg && it.hasUploads then
        match env.upload i with
        | .ok _ => { st with uploadsAttempted := st.uploadsAttempted ++ [i] }
        | .error e =>
          { st with uploadsAttempted := st.uploadsAttempted ++ [i],
                    driveError := some e }
      else st
    let row := mkRow env.ts it (itemLinks env i it)
    match env.append i with
    | .ok _ =>
      runBatch env rest (i + 1)
        { st1 with appendedRows := st1.appendedRows ++ [row],
                   appendsAttempted := st1.appendsAttempted ++ [i] }
    | .error e =>
      recordAppendErr e { st1 with appendsAttempted := st1.appendsAttempted ++ [i] }

def initBatchState : BatchState := ⟨[], [], [], none, none, none⟩

/-- One form submission's processing of its pending items. -/
def submitBatch (env : BatchEnv) (items : List Item) : BatchState :=
  runBatch env items 0 initBatchState

/-- The rows the first `k` items of the batch produce, starting at item
index `i`. -/
def expectedRows (env : BatchEnv) : List Item → Nat → Nat → List (List String)
  | _, _, 0 => []
  | [], _, _ + 1 => []
  | it :: rest, i, k + 1 =>
    mkRow env.ts it (itemLinks env i it) :: expectedRows env rest (i + 1) k

/-- The item indices whose upload is attempted (root folder configured and
the item carries uploads), starting at index `i`. -/
def expectedUploads (env : BatchEnv) : List Item → Nat → List Nat
  | [], _ => []
  | it :: rest, i =>
    (if env.driveCfg && it.hasUploads then [i] else []) ++
      expectedUploads env rest (i + 1)

/-- The final value of the `drive_error` variable after processing the
given items starting from accumulator `acc` (each failed upload overwrites
it). -/
def lastDriveErr (env : BatchEnv) : List Item → Nat → Option Nat → Option Nat
  | [], _, acc => acc
  | it :: rest, i, acc =>
    lastDriveErr env rest (i + 1)
      (if env.driveCfg && it.hasUploads then
        match env.upload i with
        | .ok _ => acc
        | .error e => some e
      else acc)

lemma range_map_add_succ (i k : Nat) :
    (List.range (k + 1)).map (fun a => i + a) =
      i :: (List.range k).map (fun a => (i + 1) + a) := by
  rw [List.range_succ_eq_map, List.map_cons, List.map_map]
  refine congrArg₂ _ (by omega) (List.map_congr_left ?_)
  intro a _
  simp only [Function.comp_apply]
  omega

/-- Running the loop from item index `i` when the first `k` appends
succeed and the append of item `k` fails: the first `k` rows are
committed in order, uploads are attempted for items `0..k` only, appends
for items `0..k` exactly, `drive_error` is the last upload error among
items `0..k`, and the append error ends the loop via `recordAppendErr`. -/
lemma runBatch_break (env : BatchEnv) :
    ∀ (items : List Item) (i : Nat) (st : BatchState) (k : Nat) (e : GExc),
      k < items.length →
      (∀ j, j < k → env.append (i + j) = Except.ok ()) →
      env.append (i + k) = Except.error e →
      runBatch env items i st =
        recordAppendErr e
          { appendedRows := st.appendedRows ++ expectedRows env items i k,
            uploadsAttempted :=
              st.uploadsAttempted ++ expectedUploads env (items.take (k + 1)) i,
            appendsAttempted :=
              st.appendsAttempted ++ (List.range (k + 1)).map (fun a => i + a),
            driveError := lastDriveErr env (items.take (k + 1)) i st.driveError,
            sheetsError := st.sheetsError,
            escaped := st.escaped } := by
  intro items
  induction items with
  | nil =>
    intro i st k e hk _ _
    simp at hk
  | cons it rest ih =>
    intro i st k e hk hok herr
    cases k with
    | zero =>
      have herr' : env.append i = Except.error e := by simpa using herr
      cases hb : env.driveCfg && it.hasUploads with
      | false =>
        simp only [runBatch, hb, Bool.false_eq_true, if_false, herr']
        congr 1
        simp [expectedRows, expectedUploads, lastDriveErr, hb, range_map_add_succ, List.range_zero]
      | true =>
        cases hup : env.upload i with
        | ok ls =>
          simp only [runBatch, hb, if_true, hup, herr']
          congr 1
          simp [expectedRows, expectedUploads, lastDriveErr, hb, hup,
            range_map_add_succ, List.range_zero]
        | error de =>
          simp only [runBatch, hb, if_true, hup, herr']
          congr 1
          simp [expectedRows, expectedUploads, lastDriveErr, hb, hup,
            range_map_add_succ, List.range_zero]
    | succ kk =>
      have h0 : env.append i = Except.ok () := by
        have := hok 0 (by omega)
        simpa using this
      have h1 : kk < rest.length := by
        simp only [List.length_cons] at hk
        omega
      have h2 : ∀ j, j < kk → env.append ((i + 1) + j) = Except.ok () := by
        intro j hj
        have h := hok (j + 1) (by omega)
        rw [show i + (j + 1) = (i + 1) + j by omega] at h
        exact h
      have h3 : env.append ((i + 1) + kk) = Except.error e := by
        rw [show (i + 1) + kk = i + (kk + 1) by omega]
        exact herr
      cases hb : env.driveCfg && it.hasUploads with
      | false =>
        simp only [runBatch, hb, Bool.false_eq_true, if_false, h0]
        rw [ih (i + 1) _ kk e h1 h2 h3]
        congr 1
        simp [expectedRows, expectedUploads, lastDriveErr, hb,
          List.take_succ_cons, range_map_add_succ]
      | true =>
        cases hup : env.upload i with
        | ok ls =>
          simp only [runBatch, hb, if_true, hup, h0]
          rw [ih (i + 1) _ kk e h1 h2 h3]
          congr 1
          simp [expectedRows, expectedUploads, lastDriveErr, hb, hup,
            List.take_succ_cons, range_map_add_succ]
        | error de =>
          simp only [runBatch, hb, if_true, hup, h0]
          rw [ih (i + 1) _ kk e h1 h2 h3]
          congr 1
          simp [expectedRows, expectedUploads, lastDriveErr, hb, hup,
            List.take_succ_cons, range_map_add_succ]

/-- Running the loop when every append succeeds: every item's row is
committed in order and the loop records no append error. -/
lemma runBatch_all_ok (env : BatchEnv) :
    ∀ (items : List Item) (i : Nat) (st : BatchState),
      (∀ j, j < items.length → env.append (i + j) = Except.ok ()) →
      runBatch env items i st =
        { appendedRows := st.appendedRows ++ expectedRows env items i items.length,
          uploadsAttempted := st.uploadsAttempted ++ expectedUploads env items i,
          appendsAttempted :=
            st.appendsAttempted ++ (List.range items.length).map (fun a => i + a),
          driveError := lastDriveErr env items i st.driveError,
          sheetsError := st.sheetsError,
          escaped := st.escaped } := by
  intro items
  induction items with
  | nil =>
    intro i st _
    simp [runBatch, expectedRows, expectedUploads, lastDriveErr]
  | cons it rest ih =>
    intro i st hok
    have h0 : env.append i = Except.ok () := by
      have := hok 0 (by simp)
      simpa using this
    have hok' : ∀ j, j < rest.length → env.append ((i + 1) + j) = Except.ok () := by
      intro j hj
      have h := hok (j + 1) (by simp; omega)
      rw [show i + (j + 1) = (i + 1) + j by omega] at h
      exact h
    cases hb : env.driveCfg && it.hasUploads with
    | false =>
      simp only [runBatch, hb, Bool.false_eq_true, if_false, h0]
      rw [ih (i + 1) _ hok']
      simp [expectedRows, expectedUploads, lastDriveErr, hb, range_map_add_succ]
    | true =>
      cases hup : env.upload i with
      | ok ls =>
        simp only [runBatch, hb, if_true, hup, h0]
        rw [ih (i + 1) _ hok']
        simp [expectedRows, expectedUploads, lastDriveErr, hb, hup,
          range_map_add_succ]
      | error de =>
        simp only [runBatch, hb, if_true, hup, h0]
        rw [ih (i + 1) _ hok']
        simp [expectedRows, expectedUploads, lastDriveErr, hb, hup,
          range_map_add_succ]

lemma recordAppendErr_appendedRows (e : GExc) (st : BatchState) :
    (recordAppendErr e st).appendedRows = st.appendedRows := by
  cases e <;> rfl

lemma recordAppendErr_uploadsAttempted (e : GExc) (st : BatchState) :
    (recordAppendErr e st).uploadsAttempted = st.uploadsAttempted := by
  cases e <;> rfl

lemma recordAppendErr_appendsAttempted (e : GExc) (st : BatchState) :
    (recordAppendErr e st).appendsAttempted = st.appendsAttempted := by
  cases e <;> rfl

lemma recordAppendErr_surfaced (e : GExc) (st : BatchState) :
    (recordAppendErr e st).sheetsError = some e ∨
      (recordAppendErr e st).escaped = some e := by
  cases e <;> simp [recordAppendErr]

lemma mem_expectedUploads (env : BatchEnv) :
    ∀ (xs : List Item) (i j : Nat), j ∈ expectedUploads env xs i →
      j < i + xs.length := by
  intro xs
  induction xs with
  | nil => intro i j hj; simp [expectedUploads] at hj
  | cons x xs' ih =>
    intro i j hj
    simp only [expectedUploads, List.mem_append] at hj
    rcases hj with hj | hj
    · rcases hb : env.driveCfg && x.hasUploads with _ | _ <;> rw [hb] at hj <;>
        simp at hj
      subst hj
      simp
    · have := ih (i + 1) j hj
      simp only [List.length_cons]
      omega

/-- C2: in a batch whose first `k` appends succeed and whose item `k`
append fails, exactly the rows of items `0..k-1` are committed, in input
order (no rollback), item `k`'s error is surfaced (via `st.error` for an
`HttpError`, or by escaping the handler otherwise), appends are attempted
exactly for items `0..k`, and no later item has an upload or append
attempted. -/
theorem submission_partial_failure (env : BatchEnv) (items : List Item)
    (k : Nat) (e : GExc) (hk : k < items.length)
    (hok : ∀ j, j < k → env.append j = Except.ok ())
    (herr : env.append k = Except.error e) :
    (submitBatch env items).appendedRows = expectedRows env items 0 k ∧
    ((submitBatch env items).sheetsError = some e ∨
      (submitBatch env items).escaped = some e) ∧
    (submitBatch env items).appendsAttempted = List.range (k + 1) ∧
    (∀ j ∈ (submitBatch env items).uploadsAttempted, j ≤ k) := by
  have hb := runBatch_break env items 0 initBatchState k e hk
    (fun j hj => by simpa using hok j hj) (by simpa using herr)
  have hsub : submitBatch env items = runBatch env items 0 initBatchState := rfl
  rw [hsub, hb]
  refine ⟨?_, recordAppendErr_surfaced e _, ?_, ?_⟩
  · rw [recordAppendErr_appendedRows]
    simp [initBatchState]
  · rw [recordAppendErr_appendsAttempted]
    simp [initBatchState]
  · intro j hj
    rw [recordAppendErr_uploadsAttempted] at hj
    simp only [initBatchState, List.nil_append] at hj
    have := mem_expectedUploads env (items.take (k + 1)) 0 j hj
    have hlen : (items.take (k + 1)).length ≤ k + 1 := by
      simp [List.length_take]
    omega

/-- A 3-item batch whose second append fails with an http 500 error. -/
def envC2 : BatchEnv :=
  ⟨true, "2024-05-02 10:00:00",
   fun _ => .ok ["https://drive/link1"],
   fun i => if i = 1 then .error (.http (some 500) 11) else .ok ()⟩

def itemsC2 : List Item :=
  [⟨"Gautam", "2024-05", "Rent", "1200.0", "Paid", "2024-05-01", "", true⟩,
   ⟨"Gautam", "2024-05", "Utilities", "80.0", "Unpaid", "2024-05-01", "", false⟩,
   ⟨"Gautam", "2024-05", "PG&E", "45.0", "Paid", "2024-05-01", "", false⟩]

/-- Witness for C2 at a concrete 3-item batch whose item 1 append fails:
item 0 is committed, item 1's error is surfaced, item 2 is not attempted. -/
theorem submission_partial_failure_witness :
    1 < itemsC2.length ∧
    (∀ j, j < 1 → envC2.append j = Except.ok ()) ∧
    envC2.append 1 = Except.error (.http (some 500) 11) ∧
    ((submitBatch envC2 itemsC2).appendedRows = expectedRows envC2 itemsC2 0 1 ∧
      ((submitBatch envC2 itemsC2).sheetsError = some (.http (some 500) 11) ∨
        (submitBatch envC2 itemsC2).escaped = some (.http (some 500) 11)) ∧
      (submitBatch envC2 itemsC2).appendsAttempted = List.range 2 ∧
      (∀ j ∈ (submitBatch envC2 itemsC2).uploadsAttempted, j ≤ 1)) :=
  ⟨by decide, by decide, by decide,
   submission_partial_failure envC2 itemsC2 1 (.http (some 500) 11)
     (by decide) (by decide) (by decide)⟩

lemma expectedRows_append (env : BatchEnv) :
    ∀ (xs ys : List Item) (i m : Nat),
      expectedRows env (xs ++ ys) i (xs.length + m) =
        expectedRows env xs i xs.length ++ expectedRows env ys (i + xs.length) m := by
  intro xs
  induction xs with
  | nil => intro ys i m; simp [expectedRows]
  | cons x xs' ih =>
    intro ys i m
    rw [show (x :: xs').length + m = (xs'.length + m) + 1 by simp; omega]
    simp only [List.cons_append, expectedRows, List.append_eq]
    rw [ih ys (i + 1) m]
    rw [show i + (x :: xs').length = (i + 1) + xs'.length by
      simp [List.length_cons]; omega]

/-- C3: an item whose attachment upload raises gets no links — its row is
still appended with `file_links = ""` — and the batch continues: with all
appends succeeding, every item of the batch (before and after the failing
one) has its row committed, in order, and no append error is recorded. -/
theorem attachment_failure_nonfatal (env : BatchEnv) (pre : List Item)
    (itk : Item) (post : List Item) (de : Nat)
    (hcfg : env.driveCfg = true) (hu : itk.hasUploads = true)
    (hfail : env.upload pre.length = Except.error de)
    (hok : ∀ j, j < (pre ++ itk :: post).length → env.append j = Except.ok ()) :
    (submitBatch env (pre ++ itk :: post)).appendedRows =
      expectedRows env pre 0 pre.length ++
        mkRow env.ts itk [] ::
          expectedRows env post (pre.length + 1) post.length ∧
    (submitBatch env (pre ++ itk :: post)).appendsAttempted =
      List.range (pre ++ itk :: post).length ∧
    (submitBatch env (pre ++ itk :: post)).sheetsError = none ∧
    (submitBatch env (pre ++ itk :: post)).escaped = none ∧
    (mkRow env.ts itk []).getLast? = some "" := by
  have hall := runBatch_all_ok env (pre ++ itk :: post) 0 initBatchState
    (fun j hj => by simpa using hok j hj)
  have hsub : submitBatch env (pre ++ itk :: post) =
      runBatch env (pre ++ itk :: post) 0 initBatchState := rfl
  have hlinks : itemLinks env pre.length itk = [] := by
    simp [itemLinks, hcfg, hu, hfail]
  have hrows : expectedRows env (pre ++ itk :: post) 0 (pre ++ itk :: post).length =
      expectedRows env pre 0 pre.length ++
        mkRow env.ts itk [] ::
          expectedRows env post (pre.length + 1) post.length := by
    rw [show (pre ++ itk :: post).length = pre.length + (post.length + 1) by
      simp [List.length_append]]
    rw [expectedRows_append env pre (itk :: post) 0 (post.length + 1)]
    simp only [expectedRows, Nat.zero_add]
    rw [hlinks]
  rw [hsub, hall]
  refine ⟨by simpa [initBatchState] using hrows, ?_, rfl, rfl, rfl⟩
  simp [initBatchState]

/-- A 3-item batch whose second item carries uploads and whose upload call
raises; every append succeeds. -/
def envC3 : BatchEnv :=
  ⟨true, "2024-05-02 10:00:00",
   fun i => if i = 1 then .error 23 else .ok ["https://drive/link1"],
   fun _ => .ok ()⟩

def itemsC3pre : List Item :=
  [⟨"Harsha", "2024-05", "Rent", "900.0", "Paid", "2024-05-01", "", false⟩]

def itemC3 : Item :=
  ⟨"Harsha", "2024-05", "Utilities", "60.0", "Unpaid", "2024-05-01", "", true⟩

def itemsC3post : List Item :=
  [⟨"Harsha", "2024-05", "PG&E", "30.0", "Paid", "2024-05-01", "", false⟩]

/-- Witness for C3 at a concrete batch: the failing-upload item's row is
appended with empty `file_links` and all three rows commit. -/
theorem attachment_failure_nonfatal_witness :
    envC3.driveCfg = true ∧ itemC3.hasUploads = true ∧
    envC3.upload itemsC3pre.length = Except.error 23 ∧
    ((submitBatch envC3 (itemsC3pre ++ itemC3 :: itemsC3post)).appendedRows =
      expectedRows envC3 itemsC3pre 0 itemsC3pre.length ++
        mkRow envC3.ts itemC3 [] ::
          expectedRows envC3 itemsC3post (itemsC3pre.length + 1)
            itemsC3post.length ∧
    (submitBatch envC3 (itemsC3pre ++ itemC3 :: itemsC3post)).appendsAttempted =
      List.range (itemsC3pre ++ itemC3 :: itemsC3post).length ∧
    (submitBatch envC3 (itemsC3pre ++ itemC3 :: itemsC3post)).sheetsError = none ∧
    (submitBatch envC3 (itemsC3pre ++ itemC3 :: itemsC3post)).escaped = none ∧
    (mkRow envC3.ts itemC3 []).getLast? = some "") :=
  ⟨rfl, rfl, rfl,
   attachment_failure_nonfatal envC3 itemsC3pre itemC3 itemsC3post 23
     rfl rfl rfl (by decide)⟩

end App
